import Mathlib

/-!
# Verification of the `voting_dao` Anchor program

Shallow embedding of `src/programs/voting_dao/src/lib.rs` (an
Anchor/Solana program with three instructions: `create_proposal`,
`cast_vote`, `delete_proposal`).

Modelling decisions, all taken from the source:

* Solana `Pubkey`s of signers/voters are modelled as `Nat` (the zero
  key, `Pubkey::default()`, is `0`).  Program-derived addresses are
  modelled by their seeds: a proposal account's address is its title
  (seeds `[b"proposal", title]`), a vote account's address is the pair
  (proposal address, voter key) (seeds `[b"vote", proposal, signer]`).
  Seed-to-address derivation is deterministic and collision-free in
  this model, which is the intended reading of PDA derivation.
* Anchor evaluates the `#[account(init, ...)]` constraints before the
  instruction body runs: the allocate-if-absent check (duplicate
  proposal / duplicate vote) therefore precedes every `require!` in
  the handlers, and a freshly initialised account is zero-filled.
* A failed instruction aborts the whole Solana transaction, reverting
  every account write.  Operations are therefore given in two layers:
  a `...Body` function that threads the partial state through the
  handler exactly as the code writes it (so the vote record inserted
  by `init` is visible in the intermediate state), and a transactional
  wrapper `stepTx` that reverts to the pre-state on any error.
* `u16` vote counts are modelled as `Nat` reduced `% 2 ^ 16` at the
  increment (`count += 1` compiled in release mode wraps); `u64`
  timestamps are `Nat` (every subtraction the code performs is guarded
  so truncated subtraction agrees with the machine arithmetic).
-/

/-- The `u16` modulus for `Choice.count`. -/
def u16Mod : Nat := 65536

/-- One selectable option of a proposal (`struct Choice`). -/
structure Choice where
  name : String
  count : Nat
  deriving DecidableEq

/-- A proposal account (`struct Proposal`), fields in source order. -/
structure Proposal where
  description : String
  title : String
  votes : List Choice
  date_start : Nat
  date_end : Nat
  creator : Nat
  deriving DecidableEq

/-- A vote-record account (`struct Voting`). Its address is derived
from (proposal address, voter), so the `proposal` field is the
proposal's address (a title in this model) and `voter` a pubkey. -/
structure Voting where
  choice : String
  voter : Nat
  proposal : String
  deriving DecidableEq

/-- The zero-filled `Voting` account produced by Anchor's `init`
before the handler body runs.  `cast_vote`'s body never assigns the
fields, so this is also the persisted record. -/
def defaultVoting : Voting := { choice := "", voter := 0, proposal := "" }

/-- The zero-filled `Proposal` account produced by `init` before
`create_proposal`'s body assigns its fields. -/
def defaultProposal : Proposal :=
  { description := "", title := "", votes := [], date_start := 0, date_end := 0, creator := 0 }

/-- Every error the three instructions can surface.  The first eight
are the program's `ProposalError` codes; `DuplicateProposal` /
`DuplicateVote` are the allocate-if-absent failures of the two
`#[account(init)]` constraints, and `AccountNotFound` is the account
resolution failure for a missing proposal account. -/
inductive ProposalError where
  | DateNotConform
  | InvalidNumberOfChoices
  | InvalidChoice
  | VoteNotOpen
  | VoteClosed
  | NotAuthorized
  | VoteNotEnded
  | TooRecentToDelete
  | DuplicateProposal
  | DuplicateVote
  | AccountNotFound
  deriving DecidableEq

/-- On-chain state visible to the program: the proposal accounts,
keyed by their derived address (the title), and the vote-record
accounts, keyed by (proposal address, voter). -/
structure DaoState where
  proposals : List (String × Proposal)
  votes : List ((String × Nat) × Voting)
  deriving DecidableEq

/-- First-match association lookup (account resolution at an address). -/
def lookupA {α β : Type} [DecidableEq α] : List (α × β) → α → Option β
  | [], _ => none
  | e :: l, a => if e.1 = a then some e.2 else lookupA l a

/-- Overwrite the account stored at address `a` (all matching entries). -/
def setAll {α β : Type} [DecidableEq α] : List (α × β) → α → β → List (α × β)
  | [], _, _ => []
  | e :: l, a, b => (if e.1 = a then (a, b) else e) :: setAll l a b

/-- Close the account stored at address `a`. -/
def eraseAll {α β : Type} [DecidableEq α] : List (α × β) → α → List (α × β)
  | [], _ => []
  | e :: l, a => if e.1 = a then eraseAll l a else e :: eraseAll l a

/-- `proposal.votes.iter_mut().find(|x| x.name == target).is_some()`. -/
def hasChoice : List Choice → String → Bool
  | [], _ => false
  | c :: l, t => if c.name = t then true else hasChoice l t

/-- `choice.unwrap().count += 1`: bump the first choice named `t`,
with `u16` wrap-around. -/
def incFirst : List Choice → String → List Choice
  | [], _ => []
  | c :: l, t =>
    if c.name = t then { c with count := (c.count + 1) % u16Mod } :: l
    else c :: incFirst l t

/-- `create_proposal` handler, partial-state semantics.  The `init`
constraint (duplicate-title guard, zero-filled allocation) runs first,
then the two `require!`s, then the field assignments. -/
def createProposalBody (s : DaoState) (signer : Nat) (title description : String)
    (choices : List String) (date_start date_end : Nat) :
    DaoState × Option ProposalError :=
  if (lookupA s.proposals title).isSome then (s, some .DuplicateProposal)
  else
    let s1 : DaoState := { s with proposals := (title, defaultProposal) :: s.proposals }
    if ¬ (2 ≤ choices.length ∧ choices.length ≤ 5) then (s1, some .InvalidNumberOfChoices)
    else if ¬ date_start ≤ date_end then (s1, some .DateNotConform)
    else
      ({ s with proposals :=
          (title,
            { description := description
              title := title
              votes := choices.map (fun name => { name := name, count := 0 })
              date_start := date_start
              date_end := date_end
              creator := signer }) :: s.proposals }, none)

/-- `cast_vote` handler, partial-state semantics.  Account resolution
and the vote account's `init` (duplicate-vote guard) run first; the
body then checks the window, looks the choice up and increments it.
The `Voting` account's fields are never assigned by the body, so the
record keeps its zero-filled contents. -/
def castVoteBody (s : DaoState) (voter : Nat) (paddr target : String) (t : Nat) :
    DaoState × Option ProposalError :=
  match lookupA s.proposals paddr with
  | none => (s, some .AccountNotFound)
  | some p =>
    if (lookupA s.votes (paddr, voter)).isSome then (s, some .DuplicateVote)
    else
      let s1 : DaoState := { s with votes := ((paddr, voter), defaultVoting) :: s.votes }
      if ¬ p.date_start ≤ t then (s1, some .VoteNotOpen)
      else if ¬ p.date_end > t then (s1, some .VoteClosed)
      else if hasChoice p.votes target then
        let p' : Proposal := { p with votes := incFirst p.votes target }
        ({ s1 with proposals := setAll s1.proposals paddr p' }, none)
      else (s1, some .InvalidChoice)

/-- `delete_proposal` handler.  Checks, in source order: signer is the
creator; `date_end < t`; `t - date_end ≥ 2_592_000`; then closes the
proposal account.  The subtraction is guarded by `date_end < t`, so
`Nat` truncated subtraction agrees with the `u64` arithmetic. -/
def deleteProposalBody (s : DaoState) (signer : Nat) (paddr : String) (t : Nat) :
    DaoState × Option ProposalError :=
  match lookupA s.proposals paddr with
  | none => (s, some .AccountNotFound)
  | some p =>
    if ¬ p.creator = signer then (s, some .NotAuthorized)
    else if ¬ p.date_end < t then (s, some .VoteNotEnded)
    else if ¬ 2592000 ≤ t - p.date_end then (s, some .TooRecentToDelete)
    else ({ s with proposals := eraseAll s.proposals paddr }, none)

/-- One instruction together with its arguments, the clock sysvar
reading `t` included where the handler reads it. -/
inductive Op where
  | create (signer : Nat) (title description : String)
      (choices : List String) (date_start date_end : Nat)
  | vote (voter : Nat) (paddr target : String) (t : Nat)
  | del (signer : Nat) (paddr : String) (t : Nat)
  deriving DecidableEq

/-- Dispatch an instruction to its handler (partial-state semantics). -/
def stepBody (s : DaoState) : Op → DaoState × Option ProposalError
  | .create signer title description choices ds de =>
      createProposalBody s signer title description choices ds de
  | .vote voter paddr target t => castVoteBody s voter paddr target t
  | .del signer paddr t => deleteProposalBody s signer paddr t

/-- Transactional semantics: a failed instruction aborts the Solana
transaction and every account write is reverted. -/
def stepTx (s : DaoState) (o : Op) : DaoState × Option ProposalError :=
  match stepBody s o with
  | (s', none) => (s', none)
  | (_, some e) => (s, some e)

/-- `create_proposal` as one transaction. -/
def createProposal (s : DaoState) (signer : Nat) (title description : String)
    (choices : List String) (date_start date_end : Nat) :
    DaoState × Option ProposalError :=
  stepTx s (.create signer title description choices date_start date_end)

/-- `cast_vote` as one transaction. -/
def castVote (s : DaoState) (voter : Nat) (paddr target : String) (t : Nat) :
    DaoState × Option ProposalError :=
  stepTx s (.vote voter paddr target t)

/-- `delete_proposal` as one transaction. -/
def deleteProposal (s : DaoState) (signer : Nat) (paddr : String) (t : Nat) :
    DaoState × Option ProposalError :=
  stepTx s (.del signer paddr t)

/-- The empty chain state. -/
def initState : DaoState := { proposals := [], votes := [] }

/-- Run a sequence of transactions from a state. -/
def runFrom (s : DaoState) (ops : List Op) : DaoState :=
  ops.foldl (fun s o => (stepTx s o).1) s

/-- Run a sequence of transactions from the empty state. -/
def run (ops : List Op) : DaoState := runFrom initState ops

/-- Sum of a proposal's per-choice tallies. -/
def sumCounts (p : Proposal) : Nat := (p.votes.map Choice.count).sum

/-- Number of vote-record accounts whose derived address references
proposal address `a`. -/
def recordCount (s : DaoState) (a : String) : Nat :=
  (s.votes.filter (fun r => r.1.1 = a)).length

/-- Titles named by the `create` instructions of a trace (attempted
creations, successful or not). -/
def createdTitles (ops : List Op) : List String :=
  ops.filterMap (fun o => match o with
    | .create _ title _ _ _ _ => some title
    | _ => none)

/-- A concrete state used by the witnesses: proposal "P1" with choices
A/B, window [100, 200), created by identity 1 on an empty chain. -/
def stateP1 : DaoState := (createProposal initState 1 "P1" "d" ["A", "B"] 100 200).1

/-! ## Helper lemmas about the association-list primitives -/

@[simp]
theorem lookupA_nil {α β : Type} [DecidableEq α] (a : α) :
    lookupA ([] : List (α × β)) a = none := rfl

@[simp]
theorem lookupA_cons {α β : Type} [DecidableEq α] (e : α × β) (l : List (α × β)) (a : α) :
    lookupA (e :: l) a = if e.1 = a then some e.2 else lookupA l a := rfl

@[simp]
theorem setAll_nil {α β : Type} [DecidableEq α] (a : α) (b : β) :
    setAll ([] : List (α × β)) a b = [] := rfl

@[simp]
theorem setAll_cons {α β : Type} [DecidableEq α] (e : α × β) (l : List (α × β)) (a : α) (b : β) :
    setAll (e :: l) a b = (if e.1 = a then (a, b) else e) :: setAll l a b := rfl

@[simp]
theorem eraseAll_nil {α β : Type} [DecidableEq α] (a : α) :
    eraseAll ([] : List (α × β)) a = [] := rfl

@[simp]
theorem eraseAll_cons {α β : Type} [DecidableEq α] (e : α × β) (l : List (α × β)) (a : α) :
    eraseAll (e :: l) a = if e.1 = a then eraseAll l a else e :: eraseAll l a := rfl

theorem lookupA_setAll_self {α β : Type} [DecidableEq α] (l : List (α × β)) (a : α) (b : β) :
    lookupA (setAll l a b) a = (lookupA l a).map (fun _ => b) := by
  induction l with
  | nil => simp
  | cons e l ih =>
    by_cases h : e.1 = a <;> simp [h, ih]

theorem lookupA_setAll_ne {α β : Type} [DecidableEq α] (l : List (α × β)) (a a' : α) (b : β)
    (h : a' ≠ a) : lookupA (setAll l a b) a' = lookupA l a' := by
  induction l with
  | nil => simp
  | cons e l ih =>
    by_cases he : e.1 = a
    · simp [he, Ne.symm h, ih]
    · simp [he, ih]

theorem lookupA_eraseAll_self {α β : Type} [DecidableEq α] (l : List (α × β)) (a : α) :
    lookupA (eraseAll l a) a = none := by
  induction l with
  | nil => simp
  | cons e l ih =>
    by_cases h : e.1 = a <;> simp [h, ih]

theorem lookupA_eraseAll_ne {α β : Type} [DecidableEq α] (l : List (α × β)) (a a' : α)
    (h : a' ≠ a) : lookupA (eraseAll l a) a' = lookupA l a' := by
  induction l with
  | nil => simp
  | cons e l ih =>
    by_cases he : e.1 = a
    · simp [he, Ne.symm h, ih]
    · simp [he, ih]

theorem keys_setAll {α β : Type} [DecidableEq α] (l : List (α × β)) (a : α) (b : β) :
    ∀ e ∈ setAll l a b, e.1 = a ∨ e.1 ∈ l.map Prod.fst := by
  induction l with
  | nil => simp
  | cons e l ih =>
    intro e' he'
    rcases List.mem_cons.mp he' with h | h
    · by_cases hk : e.1 = a
      · simp_all
      · simp_all
    · rcases ih e' h with h' | h'
      · exact Or.inl h'
      · simp [h']

theorem keys_eraseAll {α β : Type} [DecidableEq α] (l : List (α × β)) (a : α) :
    ∀ e ∈ eraseAll l a, e.1 ∈ l.map Prod.fst := by
  induction l with
  | nil => simp
  | cons e l ih =>
    intro e' he'
    by_cases hk : e.1 = a
    · simp only [eraseAll_cons, if_pos hk] at he'
      simp [ih e' he']
    · simp only [eraseAll_cons, if_neg hk] at he'
      rcases List.mem_cons.mp he' with h | h
      · simp [h]
      · simp [ih e' h]

/-! ## Helper lemmas about the choice-list primitives -/

/-- A matched choice splits its list into an unmatched prefix, the
first match, and the rest; `incFirst` bumps exactly that match. -/
theorem incFirst_split (l : List Choice) (t : String) (h : hasChoice l t = true) :
    ∃ pre c post, l = pre ++ c :: post ∧ (∀ c' ∈ pre, c'.name ≠ t) ∧ c.name = t ∧
      incFirst l t = pre ++ { c with count := (c.count + 1) % u16Mod } :: post := by
  induction l with
  | nil => simp [hasChoice] at h
  | cons c l ih =>
    by_cases hc : c.name = t
    · exact ⟨[], c, l, by simp, by simp, hc, by simp [incFirst, hc]⟩
    · have h' : hasChoice l t = true := by simpa [hasChoice, hc] using h
      obtain ⟨pre, c', post, hl, hpre, hname, hinc⟩ := ih h'
      exact ⟨c :: pre, c', post, by simp [hl], by
        intro x hx
        rcases List.mem_cons.mp hx with h | h
        · simpa [h] using hc
        · exact hpre x h, hname, by simp [incFirst, hc, hinc]⟩

/-- Each position of `incFirst l t` holds either the old choice or
the old choice with its count bumped by one modulo `2 ^ 16`. -/
theorem incFirst_get (l : List Choice) (t : String) (i : Nat) :
    (incFirst l t).get? i = l.get? i ∨
      ∃ c, l.get? i = some c ∧
        (incFirst l t).get? i = some { c with count := (c.count + 1) % u16Mod } := by
  induction l generalizing i with
  | nil => simp [incFirst]
  | cons c l ih =>
    by_cases hc : c.name = t
    · cases i with
      | zero => exact Or.inr ⟨c, rfl, by simp [incFirst, hc]⟩
      | succ j => simp [incFirst, hc]
    · cases i with
      | zero => simp [incFirst, hc]
      | succ j =>
        rcases ih j with h | ⟨x, hx, hx'⟩
        · exact Or.inl (by simpa [incFirst, hc] using h)
        · exact Or.inr ⟨x, by simpa using hx, by simpa [incFirst, hc] using hx'⟩

@[simp]
theorem incFirst_length (l : List Choice) (t : String) :
    (incFirst l t).length = l.length := by
  induction l with
  | nil => rfl
  | cons c l ih => by_cases hc : c.name = t <;> simp [incFirst, hc, ih]

/-! ## Branch characterizations of the three transactions -/

theorem stepTx_of_error (s : DaoState) (o : Op) (e : ProposalError)
    (h : (stepTx s o).2 = some e) : (stepTx s o).1 = s := by
  unfold stepTx at *
  rcases hb : stepBody s o with ⟨s', r⟩
  cases r <;> simp [hb] at h ⊢

theorem createProposal_dup (s : DaoState) (sg : Nat) (title d : String)
    (ch : List String) (ds de : Nat)
    (h : (lookupA s.proposals title).isSome = true) :
    createProposal s sg title d ch ds de = (s, some .DuplicateProposal) := by
  simp [createProposal, stepTx, stepBody, createProposalBody, h]

theorem createProposal_badLen (s : DaoState) (sg : Nat) (title d : String)
    (ch : List String) (ds de : Nat)
    (h : lookupA s.proposals title = none)
    (hl : ¬ (2 ≤ ch.length ∧ ch.length ≤ 5)) :
    createProposal s sg title d ch ds de = (s, some .InvalidNumberOfChoices) := by
  simp [createProposal, stepTx, stepBody, createProposalBody, h, hl]

theorem createProposal_badDates (s : DaoState) (sg : Nat) (title d : String)
    (ch : List String) (ds de : Nat)
    (h : lookupA s.proposals title = none)
    (hl : 2 ≤ ch.length ∧ ch.length ≤ 5) (hd : ¬ ds ≤ de) :
    createProposal s sg title d ch ds de = (s, some .DateNotConform) := by
  simp [createProposal, stepTx, stepBody, createProposalBody, h, hl, hd]

theorem createProposal_ok (s : DaoState) (sg : Nat) (title d : String)
    (ch : List String) (ds de : Nat)
    (h : lookupA s.proposals title = none)
    (hl : 2 ≤ ch.length ∧ ch.length ≤ 5) (hd : ds ≤ de) :
    createProposal s sg title d ch ds de =
      ({ s with proposals :=
          (title,
            { description := d, title := title,
              votes := ch.map (fun name => { name := name, count := 0 }),
              date_start := ds, date_end := de, creator := sg }) :: s.proposals }, none) := by
  simp [createProposal, stepTx, stepBody, createProposalBody, h, hl, hd]

theorem castVote_noAccount (s : DaoState) (v : Nat) (a c : String) (t : Nat)
    (h : lookupA s.proposals a = none) :
    castVote s v a c t = (s, some .AccountNotFound) := by
  simp [castVote, stepTx, stepBody, castVoteBody, h]

theorem castVote_dup (s : DaoState) (v : Nat) (a c : String) (t : Nat) (p : Proposal)
    (h : lookupA s.proposals a = some p)
    (hv : (lookupA s.votes (a, v)).isSome = true) :
    castVote s v a c t = (s, some .DuplicateVote) := by
  simp [castVote, stepTx, stepBody, castVoteBody, h, hv]

theorem castVote_notOpen (s : DaoState) (v : Nat) (a c : String) (t : Nat) (p : Proposal)
    (h : lookupA s.proposals a = some p)
    (hv : lookupA s.votes (a, v) = none)
    (ht : t < p.date_start) :
    castVote s v a c t = (s, some .VoteNotOpen) := by
  simp [castVote, stepTx, stepBody, castVoteBody, h, hv, Nat.not_le.mpr ht]

theorem castVote_closed (s : DaoState) (v : Nat) (a c : String) (t : Nat) (p : Proposal)
    (h : lookupA s.proposals a = some p)
    (hv : lookupA s.votes (a, v) = none)
    (ht : p.date_start ≤ t) (ht' : p.date_end ≤ t) :
    castVote s v a c t = (s, some .VoteClosed) := by
  simp [castVote, stepTx, stepBody, castVoteBody, h, hv, ht, Nat.not_lt.mpr ht']

theorem castVote_badChoice (s : DaoState) (v : Nat) (a c : String) (t : Nat) (p : Proposal)
    (h : lookupA s.proposals a = some p)
    (hv : lookupA s.votes (a, v) = none)
    (ht : p.date_start ≤ t) (ht' : t < p.date_end)
    (hc : hasChoice p.votes c = false) :
    castVote s v a c t = (s, some .InvalidChoice) := by
  simp [castVote, stepTx, stepBody, castVoteBody, h, hv, ht, ht', hc]

theorem castVote_ok (s : DaoState) (v : Nat) (a c : String) (t : Nat) (p : Proposal)
    (h : lookupA s.proposals a = some p)
    (hv : lookupA s.votes (a, v) = none)
    (ht : p.date_start ≤ t) (ht' : t < p.date_end)
    (hc : hasChoice p.votes c = true) :
    castVote s v a c t =
      ({ proposals := setAll s.proposals a { p with votes := incFirst p.votes c },
         votes := ((a, v), defaultVoting) :: s.votes }, none) := by
  simp [castVote, stepTx, stepBody, castVoteBody, h, hv, ht, ht', hc]

theorem deleteProposal_noAccount (s : DaoState) (sg : Nat) (a : String) (t : Nat)
    (h : lookupA s.proposals a = none) :
    deleteProposal s sg a t = (s, some .AccountNotFound) := by
  simp [deleteProposal, stepTx, stepBody, deleteProposalBody, h]

theorem deleteProposal_notAuthorized (s : DaoState) (sg : Nat) (a : String) (t : Nat)
    (p : Proposal) (h : lookupA s.proposals a = some p) (hs : p.creator ≠ sg) :
    deleteProposal s sg a t = (s, some .NotAuthorized) := by
  simp [deleteProposal, stepTx, stepBody, deleteProposalBody, h, hs]

theorem deleteProposal_notEnded (s : DaoState) (sg : Nat) (a : String) (t : Nat)
    (p : Proposal) (h : lookupA s.proposals a = some p) (hs : p.creator = sg)
    (ht : t ≤ p.date_end) :
    deleteProposal s sg a t = (s, some .VoteNotEnded) := by
  simp [deleteProposal, stepTx, stepBody, deleteProposalBody, h, hs, Nat.not_lt.mpr ht]

theorem deleteProposal_tooRecent (s : DaoState) (sg : Nat) (a : String) (t : Nat)
    (p : Proposal) (h : lookupA s.proposals a = some p) (hs : p.creator = sg)
    (ht : p.date_end < t) (ht' : t - p.date_end < 2592000) :
    deleteProposal s sg a t = (s, some .TooRecentToDelete) := by
  simp [deleteProposal, stepTx, stepBody, deleteProposalBody, h, hs, ht, Nat.not_le.mpr ht']

theorem deleteProposal_ok (s : DaoState) (sg : Nat) (a : String) (t : Nat)
    (p : Proposal) (h : lookupA s.proposals a = some p) (hs : p.creator = sg)
    (ht : p.date_end < t) (ht' : 2592000 ≤ t - p.date_end) :
    deleteProposal s sg a t = ({ s with proposals := eraseAll s.proposals a }, none) := by
  simp [deleteProposal, stepTx, stepBody, deleteProposalBody, h, hs, ht, ht']

/-! ## Inversion lemmas: what a successful transaction implies -/

theorem createProposal_ok_inv (s : DaoState) (sg : Nat) (title d : String)
    (ch : List String) (ds de : Nat)
    (h : (createProposal s sg title d ch ds de).2 = none) :
    lookupA s.proposals title = none ∧ (2 ≤ ch.length ∧ ch.length ≤ 5) ∧ ds ≤ de ∧
      (createProposal s sg title d ch ds de).1 =
        { s with proposals :=
            (title,
              { description := d, title := title,
                votes := ch.map (fun name => { name := name, count := 0 }),
                date_start := ds, date_end := de, creator := sg }) :: s.proposals } := by
  rcases hp : lookupA s.proposals title with _ | p
  · by_cases hl : 2 ≤ ch.length ∧ ch.length ≤ 5
    · by_cases hd : ds ≤ de
      · exact ⟨rfl, hl, hd, by rw [createProposal_ok s sg title d ch ds de hp hl hd]⟩
      · rw [createProposal_badDates s sg title d ch ds de hp hl hd] at h; simp at h
    · rw [createProposal_badLen s sg title d ch ds de hp hl] at h; simp at h
  · rw [createProposal_dup s sg title d ch ds de (by simp [hp])] at h; simp at h

theorem castVote_ok_inv (s : DaoState) (v : Nat) (a c : String) (t : Nat)
    (h : (castVote s v a c t).2 = none) :
    ∃ p, lookupA s.proposals a = some p ∧ lookupA s.votes (a, v) = none ∧
      p.date_start ≤ t ∧ t < p.date_end ∧ hasChoice p.votes c = true ∧
      (castVote s v a c t).1 =
        { proposals := setAll s.proposals a { p with votes := incFirst p.votes c },
          votes := ((a, v), defaultVoting) :: s.votes } := by
  rcases hp : lookupA s.proposals a with _ | p
  · rw [castVote_noAccount s v a c t hp] at h; simp at h
  · rcases hv : lookupA s.votes (a, v) with _ | r
    · by_cases ht : p.date_start ≤ t
      · by_cases ht' : t < p.date_end
        · rcases hc : hasChoice p.votes c with _ | _
          · rw [castVote_badChoice s v a c t p hp hv ht ht' hc] at h; simp at h
          · exact ⟨p, rfl, rfl, ht, ht', hc,
              by rw [castVote_ok s v a c t p hp hv ht ht' hc]⟩
        · rw [castVote_closed s v a c t p hp hv ht (Nat.not_lt.mp ht')] at h; simp at h
      · rw [castVote_notOpen s v a c t p hp hv (Nat.not_le.mp ht)] at h; simp at h
    · rw [castVote_dup s v a c t p hp (by simp [hv])] at h; simp at h

theorem deleteProposal_ok_inv (s : DaoState) (sg : Nat) (a : String) (t : Nat)
    (h : (deleteProposal s sg a t).2 = none) :
    ∃ p, lookupA s.proposals a = some p ∧ p.creator = sg ∧
      p.date_end < t ∧ 2592000 ≤ t - p.date_end ∧
      (deleteProposal s sg a t).1 = { s with proposals := eraseAll s.proposals a } := by
  rcases hp : lookupA s.proposals a with _ | p
  · rw [deleteProposal_noAccount s sg a t hp] at h; simp at h
  · by_cases hs : p.creator = sg
    · by_cases ht : p.date_end < t
      · by_cases ht' : 2592000 ≤ t - p.date_end
        · exact ⟨p, rfl, hs, ht, ht', by rw [deleteProposal_ok s sg a t p hp hs ht ht']⟩
        · rw [deleteProposal_tooRecent s sg a t p hp hs ht (Nat.not_le.mp ht')] at h
          simp at h
      · rw [deleteProposal_notEnded s sg a t p hp hs (Nat.not_lt.mp ht)] at h; simp at h
    · rw [deleteProposal_notAuthorized s sg a t p hp hs] at h; simp at h

/-! ## Persistence of vote records across arbitrary transactions -/

theorem lookupA_isSome_cons {α β : Type} [DecidableEq α] (l : List (α × β))
    (e : α × β) (k : α) (h : (lookupA l k).isSome = true) :
    (lookupA (e :: l) k).isSome = true := by
  by_cases he : e.1 = k <;> simp [he, h]

theorem lookupA_some_mem {α β : Type} [DecidableEq α] (l : List (α × β)) (a : α) (b : β)
    (h : lookupA l a = some b) : (a, b) ∈ l := by
  induction l with
  | nil => simp at h
  | cons e l ih =>
    rcases e with ⟨x, y⟩
    by_cases he : x = a
    · subst he
      simp at h
      subst h
      exact List.mem_cons_self _ _
    · simp [he] at h
      exact List.mem_cons_of_mem _ (ih h)

/-- Each transaction either leaves the vote-record store unchanged or
prepends exactly one new record; records are never removed. -/
theorem stepTx_votes_shape (s : DaoState) (o : Op) :
    ((stepTx s o).1).votes = s.votes ∨
      ∃ k r, ((stepTx s o).1).votes = (k, r) :: s.votes := by
  rcases he : (stepTx s o).2 with _ | e
  · cases o with
    | create sg title d ch ds de =>
      left
      have := (createProposal_ok_inv s sg title d ch ds de he).2.2.2
      show ((createProposal s sg title d ch ds de).1).votes = s.votes
      rw [this]
    | vote v a c t =>
      obtain ⟨p, _, _, _, _, _, hst⟩ := castVote_ok_inv s v a c t he
      refine Or.inr ⟨(a, v), defaultVoting, ?_⟩
      show ((castVote s v a c t).1).votes = ((a, v), defaultVoting) :: s.votes
      rw [hst]
    | del sg a t =>
      left
      obtain ⟨p, _, _, _, _, hst⟩ := deleteProposal_ok_inv s sg a t he
      show ((deleteProposal s sg a t).1).votes = s.votes
      rw [hst]
  · left; rw [stepTx_of_error s o e he]

theorem votes_isSome_runFrom (s : DaoState) (ops : List Op) (k : String × Nat)
    (h : (lookupA s.votes k).isSome = true) :
    (lookupA (runFrom s ops).votes k).isSome = true := by
  induction ops generalizing s with
  | nil => exact h
  | cons o ops ih =>
    show (lookupA (runFrom (stepTx s o).1 ops).votes k).isSome = true
    apply ih
    rcases stepTx_votes_shape s o with hv | ⟨k', r, hv⟩
    · rw [hv]; exact h
    · rw [hv]; exact lookupA_isSome_cons _ _ _ h

example :
    createProposal initState 1 "P1" "d" ["A", "B"] 100 200 =
      ({ proposals := [("P1",
          { description := "d", title := "P1",
            votes := [{ name := "A", count := 0 }, { name := "B", count := 0 }],
            date_start := 100, date_end := 200, creator := 1 })],
         votes := [] }, none) := by decide

example :
    (castVote (createProposal initState 1 "P1" "d" ["A", "B"] 100 200).1
      2 "P1" "A" 150).2 = none := by decide

example :
    (castVote (createProposal initState 1 "P1" "d" ["A", "B"] 100 200).1
      2 "P1" "A" 200).2 = some .VoteClosed := by decide

/-! ## The claims -/

/-- **C1.** For every (proposal, voter) pair at most one `cast_vote` ever
succeeds: after a successful `cast_vote` the vote record exists at its
derived address, it persists across any further sequence of transactions,
and any second attempt by the same voter on the same proposal — whatever
choice it names and whatever the clock reads — fails with the
duplicate-vote conflict raised by the vote account's allocate-if-absent
`init`, altering nothing (in particular no choice count). -/
theorem C1_at_most_one_vote (s s' : DaoState) (v : Nat) (a c : String) (t : Nat)
    (h : castVote s v a c t = (s', none)) :
    (lookupA s'.votes (a, v)).isSome = true ∧
    ∀ (ops : List Op) (c' : String) (t' : Nat),
      (lookupA (runFrom s' ops).votes (a, v)).isSome = true ∧
      ((lookupA (runFrom s' ops).proposals a).isSome = true →
        castVote (runFrom s' ops) v a c' t' =
          (runFrom s' ops, some .DuplicateVote)) := by
  obtain ⟨p, hp, hv, ht, ht', hc, hst⟩ := castVote_ok_inv s v a c t (by rw [h])
  have hs' : s' = (castVote s v a c t).1 := by rw [h]
  have hrec : (lookupA s'.votes (a, v)).isSome = true := by
    rw [hs', hst]; simp
  refine ⟨hrec, fun ops c' t' => ?_⟩
  have hrec' := votes_isSome_runFrom s' ops (a, v) hrec
  refine ⟨hrec', fun hps => ?_⟩
  obtain ⟨q, hq⟩ := Option.isSome_iff_exists.mp hps
  exact castVote_dup (runFrom s' ops) v a c' t' q hq hrec'

theorem C1_witness :
    (lookupA (runFrom (castVote stateP1 2 "P1" "A" 150).1 []).votes ("P1", 2)).isSome
      = true ∧
    castVote (runFrom (castVote stateP1 2 "P1" "A" 150).1 []) 2 "P1" "B" 160 =
      (runFrom (castVote stateP1 2 "P1" "A" 150).1 [], some .DuplicateVote) := by
  have h := C1_at_most_one_vote stateP1 (castVote stateP1 2 "P1" "A" 150).1
    2 "P1" "A" 150 (by decide)
  exact ⟨(h.2 [] "B" 160).1, (h.2 [] "B" 160).2 (by decide)⟩

/-- **C2.** For every title at most one proposal record exists at any
time: a successful `create_proposal` occupies the address derived from
the title, and in any state where that address is occupied a second
`create_proposal` with the same title — whatever its other arguments —
fails with the uniqueness conflict raised by the proposal account's
allocate-if-absent `init` and leaves the state (hence every field of the
first proposal) unchanged. -/
theorem C2_unique_title (s s' : DaoState) (sg : Nat) (title d : String)
    (ch : List String) (ds de : Nat)
    (h : createProposal s sg title d ch ds de = (s', none)) :
    (lookupA s'.proposals title).isSome = true ∧
    ∀ s₂ : DaoState, (lookupA s₂.proposals title).isSome = true →
      ∀ (sg' : Nat) (d' : String) (ch' : List String) (ds' de' : Nat),
        createProposal s₂ sg' title d' ch' ds' de' =
          (s₂, some .DuplicateProposal) := by
  obtain ⟨hfree, hl, hd, hst⟩ := createProposal_ok_inv s sg title d ch ds de (by rw [h])
  have hs' : s' = (createProposal s sg title d ch ds de).1 := by rw [h]
  refine ⟨by rw [hs', hst]; simp, fun s₂ hps sg' d' ch' ds' de' => ?_⟩
  exact createProposal_dup s₂ sg' title d' ch' ds' de' hps

theorem C2_witness :
    (lookupA stateP1.proposals "P1").isSome = true ∧
    createProposal stateP1 9 "P1" "x" ["C", "D", "E"] 0 1 =
      (stateP1, some .DuplicateProposal) := by
  have h := C2_unique_title initState stateP1 1 "P1" "d" ["A", "B"] 100 200 (by decide)
  exact ⟨h.1, h.2 stateP1 (by decide) 9 "x" ["C", "D", "E"] 0 1⟩

/-- **C3.** Every failing operation is all-or-nothing: whenever a
transaction (`create_proposal`, `cast_vote` or `delete_proposal`) returns
an error, the resulting state is exactly the pre-state — Solana reverts
every account write of a failed instruction, so in particular a
`cast_vote` that fails `InvalidChoice` leaves no orphaned vote record
even though the record's `init` precedes the failed choice lookup. -/
theorem C3_all_or_nothing (s : DaoState) (o : Op) (e : ProposalError)
    (h : (stepTx s o).2 = some e) : (stepTx s o).1 = s :=
  stepTx_of_error s o e h

theorem C3_witness :
    (stepTx stateP1 (.vote 3 "P1" "Z" 150)).1 = stateP1 ∧
    (stepTx stateP1 (.vote 3 "P1" "Z" 150)).2 = some .InvalidChoice ∧
    lookupA ((stepTx stateP1 (.vote 3 "P1" "Z" 150)).1).votes ("P1", 3) = none := by
  exact ⟨C3_all_or_nothing stateP1 (.vote 3 "P1" "Z" 150) .InvalidChoice (by decide),
    by decide, by decide⟩

/-- **C4.** `cast_vote` is gated by the proposal's window relative to the
clock reading `t`, for a well-formed proposal (`date_start ≤ date_end`,
enforced at creation) and a voter with no prior vote record (a prior
voter fails the allocate-if-absent `init` with the duplicate-vote
conflict before the clock is read): strictly before `date_start` the vote
fails `VoteNotOpen`; with `date_start ≤ t < date_end` and a valid choice
it succeeds; with `t ≥ date_end` it fails `VoteClosed` — the upper bound
is exclusive. -/
theorem C4_time_window (s : DaoState) (v : Nat) (a c : String) (t : Nat) (p : Proposal)
    (hw : p.date_start ≤ p.date_end)
    (hp : lookupA s.proposals a = some p)
    (hv : lookupA s.votes (a, v) = none) :
    (t < p.date_start → castVote s v a c t = (s, some .VoteNotOpen)) ∧
    (p.date_start ≤ t → t < p.date_end → hasChoice p.votes c = true →
      (castVote s v a c t).2 = none) ∧
    (p.date_end ≤ t → castVote s v a c t = (s, some .VoteClosed)) := by
  refine ⟨fun ht => castVote_notOpen s v a c t p hp hv ht,
    fun ht ht' hc => by rw [castVote_ok s v a c t p hp hv ht ht' hc],
    fun ht' => castVote_closed s v a c t p hp hv (le_trans hw ht') ht'⟩

theorem C4_witness :
    castVote stateP1 2 "P1" "A" 50 = (stateP1, some .VoteNotOpen) ∧
    (castVote stateP1 2 "P1" "A" 150).2 = none ∧
    castVote stateP1 2 "P1" "A" 200 = (stateP1, some .VoteClosed) := by
  refine ⟨(C4_time_window stateP1 2 "P1" "A" 50
      ⟨"d", "P1", [⟨"A", 0⟩, ⟨"B", 0⟩], 100, 200, 1⟩
      (by decide) (by decide) (by decide)).1 (by decide),
    (C4_time_window stateP1 2 "P1" "A" 150
      ⟨"d", "P1", [⟨"A", 0⟩, ⟨"B", 0⟩], 100, 200, 1⟩
      (by decide) (by decide) (by decide)).2.1 (by decide) (by decide) (by decide),
    (C4_time_window stateP1 2 "P1" "A" 200
      ⟨"d", "P1", [⟨"A", 0⟩, ⟨"B", 0⟩], 100, 200, 1⟩
      (by decide) (by decide) (by decide)).2.2 (by decide)⟩

/-- **C5.** `delete_proposal` gating at clock reading `t`: any signer
other than the stored creator fails `NotAuthorized` regardless of `t`;
the creator fails `VoteNotEnded` while `t ≤ date_end`, fails
`TooRecentToDelete` while `0 < t - date_end < 2 592 000`, and succeeds
once `t - date_end ≥ 2 592 000`, the proposal record being removed. -/
theorem C5_delete_gating (s : DaoState) (sg : Nat) (a : String) (t : Nat) (p : Proposal)
    (hp : lookupA s.proposals a = some p) :
    (p.creator ≠ sg → deleteProposal s sg a t = (s, some .NotAuthorized)) ∧
    (p.creator = sg → t ≤ p.date_end →
      deleteProposal s sg a t = (s, some .VoteNotEnded)) ∧
    (p.creator = sg → 0 < t - p.date_end → t - p.date_end < 2592000 →
      deleteProposal s sg a t = (s, some .TooRecentToDelete)) ∧
    (p.creator = sg → 2592000 ≤ t - p.date_end →
      deleteProposal s sg a t = ({ s with proposals := eraseAll s.proposals a }, none) ∧
      lookupA (eraseAll s.proposals a) a = none) := by
  refine ⟨fun hs => deleteProposal_notAuthorized s sg a t p hp hs,
    fun hs ht => deleteProposal_notEnded s sg a t p hp hs ht,
    fun hs h1 h2 => deleteProposal_tooRecent s sg a t p hp hs (by omega) h2,
    fun hs h1 => ⟨deleteProposal_ok s sg a t p hp hs (by omega) h1,
      lookupA_eraseAll_self _ _⟩⟩

theorem C5_witness :
    deleteProposal stateP1 9 "P1" 99999999 = (stateP1, some .NotAuthorized) ∧
    deleteProposal stateP1 1 "P1" 200 = (stateP1, some .VoteNotEnded) ∧
    deleteProposal stateP1 1 "P1" 201 = (stateP1, some .TooRecentToDelete) ∧
    deleteProposal stateP1 1 "P1" 2592200 =
      ({ stateP1 with proposals := eraseAll stateP1.proposals "P1" }, none) ∧
    lookupA (eraseAll stateP1.proposals "P1") "P1" = none := by
  refine ⟨(C5_delete_gating stateP1 9 "P1" 99999999
      ⟨"d", "P1", [⟨"A", 0⟩, ⟨"B", 0⟩], 100, 200, 1⟩ (by decide)).1 (by decide),
    (C5_delete_gating stateP1 1 "P1" 200
      ⟨"d", "P1", [⟨"A", 0⟩, ⟨"B", 0⟩], 100, 200, 1⟩ (by decide)).2.1 (by decide) (by decide),
    (C5_delete_gating stateP1 1 "P1" 201
      ⟨"d", "P1", [⟨"A", 0⟩, ⟨"B", 0⟩], 100, 200, 1⟩ (by decide)).2.2.1
        (by decide) (by decide) (by decide),
    ((C5_delete_gating stateP1 1 "P1" 2592200
      ⟨"d", "P1", [⟨"A", 0⟩, ⟨"B", 0⟩], 100, 200, 1⟩ (by decide)).2.2.2
        (by decide) (by decide)).1,
    ((C5_delete_gating stateP1 1 "P1" 2592200
      ⟨"d", "P1", [⟨"A", 0⟩, ⟨"B", 0⟩], 100, 200, 1⟩ (by decide)).2.2.2
        (by decide) (by decide)).2⟩

/-- **C6.** A successful `cast_vote` naming choice `c` increments
exactly the first choice whose name matches `c` (the `find` target) by
one in `u16` arithmetic; every other choice's count and every other
field of the proposal — creator, title, description, dates, choice names
and their order — is unchanged, and every other proposal is untouched. -/
theorem C6_single_increment (s s' : DaoState) (v : Nat) (a c : String) (t : Nat)
    (p : Proposal)
    (hp : lookupA s.proposals a = some p)
    (h : castVote s v a c t = (s', none)) :
    ∃ pre m post,
      p.votes = pre ++ m :: post ∧
      (∀ x ∈ pre, x.name ≠ c) ∧ m.name = c ∧
      lookupA s'.proposals a =
        some { p with votes :=
          pre ++ { m with count := (m.count + 1) % u16Mod } :: post } ∧
      ∀ b, b ≠ a → lookupA s'.proposals b = lookupA s.proposals b := by
  obtain ⟨p₀, hp₀, hv, ht, ht', hc, hst⟩ := castVote_ok_inv s v a c t (by rw [h])
  have hpp : p₀ = p := by
    rw [hp₀] at hp
    exact Option.some_inj.mp hp
  subst hpp
  have hs' : s' = (castVote s v a c t).1 := by rw [h]
  obtain ⟨pre, m, post, hsplit, hpre, hname, hinc⟩ := incFirst_split p₀.votes c hc
  refine ⟨pre, m, post, hsplit, hpre, hname, ?_, ?_⟩
  · rw [hs', hst]
    show lookupA (setAll s.proposals a _) a = _
    rw [lookupA_setAll_self, hp₀]
    simp [hinc]
  · intro b hb
    rw [hs', hst]
    show lookupA (setAll s.proposals a _) b = _
    rw [lookupA_setAll_ne _ _ _ _ hb]

theorem C6_witness :
    ∃ pre m post,
      [({ name := "A", count := 0 } : Choice), { name := "B", count := 0 }] =
        pre ++ m :: post ∧
      (∀ x ∈ pre, x.name ≠ "B") ∧ m.name = "B" ∧
      lookupA ((castVote stateP1 2 "P1" "B" 150).1).proposals "P1" =
        some { description := "d", title := "P1",
               votes := pre ++ { m with count := (m.count + 1) % u16Mod } :: post,
               date_start := 100, date_end := 200, creator := 1 } ∧
      ∀ b, b ≠ "P1" →
        lookupA ((castVote stateP1 2 "P1" "B" 150).1).proposals b =
          lookupA stateP1.proposals b := by
  exact C6_single_increment stateP1 (castVote stateP1 2 "P1" "B" 150).1 2 "P1" "B" 150
    ⟨"d", "P1", [⟨"A", 0⟩, ⟨"B", 0⟩], 100, 200, 1⟩ (by decide) (by decide)

/-- **C7.** `create_proposal` at a free title address: with fewer than 2
or more than 5 choices it fails `InvalidNumberOfChoices`; with a valid
choice count and `date_start > date_end` it fails `DateNotConform`; on
success it initialises the proposal with the caller as creator, the
given title, description and dates, and one choice per input name with
count 0, in the caller's order. -/
theorem C7_create_validation (s : DaoState) (sg : Nat) (title d : String)
    (ch : List String) (ds de : Nat)
    (h : lookupA s.proposals title = none) :
    (¬ (2 ≤ ch.length ∧ ch.length ≤ 5) →
      createProposal s sg title d ch ds de = (s, some .InvalidNumberOfChoices)) ∧
    (2 ≤ ch.length → ch.length ≤ 5 → de < ds →
      createProposal s sg title d ch ds de = (s, some .DateNotConform)) ∧
    (2 ≤ ch.length → ch.length ≤ 5 → ds ≤ de →
      createProposal s sg title d ch ds de =
        ({ s with proposals :=
            (title,
              { description := d, title := title,
                votes := ch.map (fun name => { name := name, count := 0 }),
                date_start := ds, date_end := de, creator := sg }) :: s.proposals },
          none) ∧
      lookupA ((createProposal s sg title d ch ds de).1).proposals title =
        some { description := d, title := title,
               votes := ch.map (fun name => { name := name, count := 0 }),
               date_start := ds, date_end := de, creator := sg }) := by
  refine ⟨fun hl => createProposal_badLen s sg title d ch ds de h hl,
    fun h2 h5 hd => createProposal_badDates s sg title d ch ds de h ⟨h2, h5⟩
      (Nat.not_le.mpr hd),
    fun h2 h5 hd => ?_⟩
  have hok := createProposal_ok s sg title d ch ds de h ⟨h2, h5⟩ hd
  refine ⟨hok, ?_⟩
  rw [hok]
  simp

theorem C7_witness :
    createProposal stateP1 1 "Q" "x" ["A"] 0 1 =
      (stateP1, some .InvalidNumberOfChoices) ∧
    createProposal stateP1 1 "Q" "x" ["A", "B"] 5 3 =
      (stateP1, some .DateNotConform) ∧
    lookupA ((createProposal stateP1 1 "Q" "x" ["C", "D"] 3 5).1).proposals "Q" =
      some { description := "x", title := "Q",
             votes := [{ name := "C", count := 0 }, { name := "D", count := 0 }],
             date_start := 3, date_end := 5, creator := 1 } := by
  refine ⟨(C7_create_validation stateP1 1 "Q" "x" ["A"] 0 1 (by decide)).1 (by decide),
    (C7_create_validation stateP1 1 "Q" "x" ["A", "B"] 5 3 (by decide)).2.1
      (by decide) (by decide) (by decide), ?_⟩
  have h := (C7_create_validation stateP1 1 "Q" "x" ["C", "D"] 3 5 (by decide)).2.2
    (by decide) (by decide) (by decide)
  simpa using h.2

/-- **C8 (code bug).** The claim — and the spec — say a successful
`cast_vote` writes the new vote record's fields to the voter identity,
the proposal address and the chosen choice name.  The handler body never
assigns `ctx.accounts.vote`, so the persisted `Voting` account keeps its
zero-filled contents (empty `choice` string, zero `voter` and `proposal`
keys): here voter 2 successfully votes "A" on "P1", yet the stored
record is the default one, not `{choice := "A", voter := 2,
proposal := "P1"}`. -/
theorem C8_vote_record_fields_unwritten :
    (castVote stateP1 2 "P1" "A" 150).2 = none ∧
    lookupA ((castVote stateP1 2 "P1" "A" 150).1).votes ("P1", 2) =
      some { choice := "", voter := 0, proposal := "" } ∧
    lookupA ((castVote stateP1 2 "P1" "A" 150).1).votes ("P1", 2) ≠
      some { choice := "A", voter := 2, proposal := "P1" } := by
  exact ⟨by decide, by decide, by decide⟩

/-! ## Counting lemmas for the tally invariant -/

theorem recordCount_proposals_irrelevant (props : List (String × Proposal))
    (vts : List ((String × Nat) × Voting)) (props' : List (String × Proposal))
    (a : String) :
    recordCount ⟨props', vts⟩ a = recordCount ⟨props, vts⟩ a := rfl

theorem recordCount_cons (props : List (String × Proposal))
    (vts : List ((String × Nat) × Voting)) (k : String × Nat) (r : Voting) (a : String) :
    recordCount ⟨props, (k, r) :: vts⟩ a =
      recordCount ⟨props, vts⟩ a + (if k.1 = a then 1 else 0) := by
  by_cases h : k.1 = a <;> simp [recordCount, List.filter_cons, h]

theorem recordCount_eq_zero (s : DaoState) (a : String)
    (h : ∀ r ∈ s.votes, r.1.1 ≠ a) : recordCount s a = 0 := by
  have : ∀ l : List ((String × Nat) × Voting), (∀ r ∈ l, r.1.1 ≠ a) →
      (l.filter (fun r => r.1.1 = a)).length = 0 := by
    intro l
    induction l with
    | nil => intro _; rfl
    | cons x l ih =>
      intro hl
      have hx : ¬ x.1.1 = a := hl x (List.mem_cons_self _ _)
      simp only [List.filter_cons, decide_eq_true_eq]
      rw [if_neg hx]
      exact ih fun r hr => hl r (List.mem_cons_of_mem _ hr)
  exact this s.votes h

theorem sumCounts_fresh (sg : Nat) (title d : String) (ch : List String) (ds de : Nat) :
    sumCounts { description := d, title := title,
                votes := ch.map (fun name => { name := name, count := 0 }),
                date_start := ds, date_end := de, creator := sg } = 0 := by
  apply List.sum_eq_zero
  intro x hx
  simp only [sumCounts, List.map_map, List.mem_map] at hx
  obtain ⟨n, _, rfl⟩ := hx
  rfl

/-- How a proposal visible at an address can change across one
transaction: it is untouched, or (by a successful vote) its first choice
matching some cast name is bumped by one modulo `2 ^ 16`. -/
theorem stepTx_proposal_evolution (s : DaoState) (o : Op) (b : String) (q q' : Proposal)
    (hq : lookupA s.proposals b = some q)
    (hq' : lookupA ((stepTx s o).1).proposals b = some q') :
    q' = q ∨ ∃ c, hasChoice q.votes c = true ∧
      q' = { q with votes := incFirst q.votes c } := by
  rcases he : (stepTx s o).2 with _ | e
  · cases o with
    | create sg ttl d ch ds de =>
      obtain ⟨hfree, _, _, hst⟩ := createProposal_ok_inv s sg ttl d ch ds de he
      have hq'' : lookupA ((createProposal s sg ttl d ch ds de).1).proposals b
          = some q' := hq'
      rw [hst] at hq''
      by_cases hb : ttl = b
      · subst hb
        rw [hfree] at hq
        simp at hq
      · left
        simp only [lookupA_cons, if_neg hb] at hq''
        rw [hq] at hq''
        exact (Option.some_inj.mp hq'').symm
    | vote v a₀ c t =>
      obtain ⟨p₀, hp₀, _, _, _, hc₀, hst⟩ := castVote_ok_inv s v a₀ c t he
      have hq'' : lookupA ((castVote s v a₀ c t).1).proposals b = some q' := hq'
      rw [hst] at hq''
      have hq3 : lookupA
          (setAll s.proposals a₀ { p₀ with votes := incFirst p₀.votes c }) b
            = some q' := hq''
      by_cases hb : b = a₀
      · subst hb
        have hpq : p₀ = q := by
          rw [hp₀] at hq
          exact Option.some_inj.mp hq
        subst hpq
        right
        refine ⟨c, hc₀, ?_⟩
        rw [lookupA_setAll_self, hp₀] at hq3
        simp only [Option.map_some'] at hq3
        exact (Option.some_inj.mp hq3).symm
      · left
        rw [lookupA_setAll_ne _ _ _ _ hb, hq] at hq3
        exact (Option.some_inj.mp hq3).symm
    | del sg a₀ t =>
      obtain ⟨p₀, hp₀, _, _, _, hst⟩ := deleteProposal_ok_inv s sg a₀ t he
      have hq'' : lookupA ((deleteProposal s sg a₀ t).1).proposals b = some q' := hq'
      rw [hst] at hq''
      by_cases hb : b = a₀
      · subst hb
        rw [lookupA_eraseAll_self] at hq''
        simp at hq''
      · left
        rw [lookupA_eraseAll_ne _ _ _ hb, hq] at hq''
        exact (Option.some_inj.mp hq'').symm
  · left
    rw [stepTx_of_error s o e he, hq] at hq'
    exact (Option.some_inj.mp hq').symm

/-- Trace invariant: along any trace whose `create` instructions never
repeat a title, every vote record's address is a created title, every
live proposal's address is a created title, every live count is below
`2 ^ 16`, and a live proposal's tally sum equals the number of vote
records at its address unless that number has reached `2 ^ 16` (at
which point a count has wrapped). -/
theorem run_invariant (ops : List Op) (hnd : (createdTitles ops).Nodup) :
    (∀ r ∈ (run ops).votes, r.1.1 ∈ createdTitles ops) ∧
    (∀ e ∈ (run ops).proposals, e.1 ∈ createdTitles ops) ∧
    (∀ a p, lookupA (run ops).proposals a = some p →
      (∀ c ∈ p.votes, c.count < u16Mod) ∧
      (sumCounts p = recordCount (run ops) a ∨ u16Mod ≤ recordCount (run ops) a)) := by
  induction ops using List.reverseRecOn with
  | nil =>
    refine ⟨?_, ?_, ?_⟩
    · intro r hr; simp [run, runFrom, initState] at hr
    · intro e he'; simp [run, runFrom, initState] at he'
    · intro a p hp; simp [run, runFrom, initState] at hp
  | append_singleton ops op ih =>
    have hct : createdTitles (ops ++ [op]) = createdTitles ops ++ createdTitles [op] := by
      simp [createdTitles]
    have hnd' : (createdTitles ops).Nodup := by
      rw [hct] at hnd
      exact hnd.of_append_left
    obtain ⟨IH1, IH2, IH3⟩ := ih hnd'
    have hrun : run (ops ++ [op]) = (stepTx (run ops) op).1 := by
      simp [run, runFrom, List.foldl_append]
    rcases he : (stepTx (run ops) op).2 with _ | e
    · cases op with
      | create sg ttl d ch ds de =>
        obtain ⟨hfree, hl, hd, hst⟩ :=
          createProposal_ok_inv (run ops) sg ttl d ch ds de he
        have hst' : (stepTx (run ops) (Op.create sg ttl d ch ds de)).1 =
            { proposals :=
                (ttl, { description := d, title := ttl,
                        votes := ch.map (fun name => { name := name, count := 0 }),
                        date_start := ds, date_end := de, creator := sg })
                  :: (run ops).proposals,
              votes := (run ops).votes } := hst
        have hctc : createdTitles (ops ++ [Op.create sg ttl d ch ds de]) =
            createdTitles ops ++ [ttl] := by simp [createdTitles]
        have hfresh : ttl ∉ createdTitles ops := by
          rw [hctc] at hnd
          intro hmem
          exact (List.nodup_append.mp hnd).2.2 hmem (by simp)
        rw [hrun, hst', hctc]
        refine ⟨?_, ?_, ?_⟩
        · intro r hr
          exact List.mem_append_left _ (IH1 r hr)
        · intro e' he'
          rcases List.mem_cons.mp he' with h | h
          · rw [h]
            exact List.mem_append_right _ (by simp)
          · exact List.mem_append_left _ (IH2 e' h)
        · intro a p hp
          by_cases hta : ttl = a
          · subst hta
            simp at hp
            subst hp
            constructor
            · intro x hx
              simp only [List.mem_map] at hx
              obtain ⟨n, _, rfl⟩ := hx
              simp [u16Mod]
            · left
              rw [sumCounts_fresh]
              have h0 : recordCount (run ops) ttl = 0 := by
                apply recordCount_eq_zero
                intro r hr heq
                apply hfresh
                have := IH1 r hr
                rwa [heq] at this
              exact h0.symm
          · have hp' : lookupA (run ops).proposals a = some p := by
              simpa [hta] using hp
            exact IH3 a p hp'
      | vote v a₀ c t =>
        obtain ⟨p₀, hp₀, hv₀, _, _, hc₀, hst⟩ := castVote_ok_inv (run ops) v a₀ c t he
        have hst' : (stepTx (run ops) (Op.vote v a₀ c t)).1 =
            { proposals := setAll (run ops).proposals a₀
                { p₀ with votes := incFirst p₀.votes c },
              votes := ((a₀, v), defaultVoting) :: (run ops).votes } := hst
        have hctc : createdTitles (ops ++ [Op.vote v a₀ c t]) = createdTitles ops := by
          simp [createdTitles]
        have ha₀ : a₀ ∈ createdTitles ops := IH2 _ (lookupA_some_mem _ _ _ hp₀)
        rw [hrun, hst', hctc]
        have hrc_cons : ∀ b : String, recordCount
            ⟨setAll (run ops).proposals a₀ { p₀ with votes := incFirst p₀.votes c },
              ((a₀, v), defaultVoting) :: (run ops).votes⟩ b =
            recordCount (run ops) b + (if a₀ = b then 1 else 0) := by
          intro b
          rw [recordCount_cons]
          rfl
        refine ⟨?_, ?_, ?_⟩
        · intro r hr
          rcases List.mem_cons.mp hr with h | h
          · rw [h]
            exact ha₀
          · exact IH1 r h
        · intro e' he'
          rcases keys_setAll (run ops).proposals a₀ _ e' he' with h | h
          · rw [h]
            exact ha₀
          · obtain ⟨e₀, he₀, hkey⟩ := List.mem_map.mp h
            rw [← hkey]
            exact IH2 e₀ he₀
        · intro b q hq
          by_cases hb : b = a₀
          · subst hb
            have hq' : lookupA
                (setAll (run ops).proposals b { p₀ with votes := incFirst p₀.votes c }) b
                  = some q := hq
            rw [lookupA_setAll_self, hp₀] at hq'
            simp only [Option.map_some'] at hq'
            have hqe : q = { p₀ with votes := incFirst p₀.votes c } :=
              (Option.some_inj.mp hq').symm
            obtain ⟨hbound₀, hdisj₀⟩ := IH3 b p₀ hp₀
            obtain ⟨pre, m, post, hsplit, hpre, hname, hinc⟩ := incFirst_split p₀.votes c hc₀
            have hmmem : m ∈ p₀.votes := by
              rw [hsplit]
              exact List.mem_append_right _ (List.mem_cons_self _ _)
            have hmlt : m.count < u16Mod := hbound₀ m hmmem
            constructor
            · intro x hx
              rw [hqe] at hx
              have hx' : x ∈ pre ++ { m with count := (m.count + 1) % u16Mod } :: post := by
                rw [← hinc]
                exact hx
              rcases List.mem_append.mp hx' with h | h
              · exact hbound₀ x (by rw [hsplit]; exact List.mem_append_left _ h)
              · rcases List.mem_cons.mp h with h' | h'
                · rw [h']
                  exact Nat.mod_lt _ (by simp [u16Mod])
                · exact hbound₀ x
                    (by rw [hsplit]
                        exact List.mem_append_right _ (List.mem_cons_of_mem _ h'))
            · rw [hqe, hrc_cons b, if_pos rfl]
              have hs1 : sumCounts { p₀ with votes := incFirst p₀.votes c } =
                  (pre.map Choice.count).sum +
                    ((m.count + 1) % u16Mod + (post.map Choice.count).sum) := by
                simp [sumCounts, hinc]
              have hs0 : sumCounts p₀ =
                  (pre.map Choice.count).sum + (m.count + (post.map Choice.count).sum) := by
                simp [sumCounts, hsplit]
              rw [hs1]
              rw [hs0] at hdisj₀
              simp only [u16Mod] at hdisj₀ hmlt ⊢
              omega
          · have hq' : lookupA
                (setAll (run ops).proposals a₀ { p₀ with votes := incFirst p₀.votes c }) b
                  = some q := hq
            rw [lookupA_setAll_ne _ _ _ _ hb] at hq'
            obtain ⟨hbound, hdisj⟩ := IH3 b q hq'
            refine ⟨hbound, ?_⟩
            rw [hrc_cons b, if_neg (fun h => hb h.symm)]
            simpa using hdisj
      | del sg a₀ t =>
        obtain ⟨p₀, hp₀, _, _, _, hst⟩ := deleteProposal_ok_inv (run ops) sg a₀ t he
        have hst' : (stepTx (run ops) (Op.del sg a₀ t)).1 =
            { proposals := eraseAll (run ops).proposals a₀,
              votes := (run ops).votes } := hst
        have hctc : createdTitles (ops ++ [Op.del sg a₀ t]) = createdTitles ops := by
          simp [createdTitles]
        rw [hrun, hst', hctc]
        refine ⟨fun r hr => IH1 r hr, ?_, ?_⟩
        · intro e' he'
          obtain ⟨e₀, he₀, hkey⟩ :=
            List.mem_map.mp (keys_eraseAll (run ops).proposals a₀ e' he')
          rw [← hkey]
          exact IH2 e₀ he₀
        · intro b q hq
          by_cases hb : b = a₀
          · subst hb
            have hq' : lookupA (eraseAll (run ops).proposals b) b = some q := hq
            rw [lookupA_eraseAll_self] at hq'
            simp at hq'
          · have hq' : lookupA (eraseAll (run ops).proposals a₀) b = some q := hq
            rw [lookupA_eraseAll_ne _ _ _ hb] at hq'
            exact IH3 b q hq'
    · have hsame := stepTx_of_error (run ops) op e he
      rw [hrun, hsame, hct]
      exact ⟨fun r hr => List.mem_append_left _ (IH1 r hr),
        fun e' he' => List.mem_append_left _ (IH2 e' he'),
        fun a p hp => IH3 a p hp⟩

/-- **C9 (amended).** In any trace whose `create_proposal` instructions
never repeat a title, every live proposal whose referencing vote-record
count is still below `2 ^ 16` has `Σ choice.count` equal to that count;
and across any single transaction each stored choice either keeps its
count or advances it by one modulo `2 ^ 16` — so counts are
non-decreasing until the `u16` wrap.  (As stated the claim is false: the
unguarded 16-bit increment wraps at `2 ^ 16` votes, and deleting a
proposal strands its vote records, so re-creating the same title yields
a live proposal with tally sums 0 but a positive referencing-record
count.) -/
theorem C9_tally_invariant_bounded (ops : List Op) (a : String) (p : Proposal)
    (hnd : (createdTitles ops).Nodup)
    (hp : lookupA (run ops).proposals a = some p)
    (hrc : recordCount (run ops) a < u16Mod) :
    sumCounts p = recordCount (run ops) a ∧
    ∀ (s : DaoState) (o : Op) (b : String) (q q' : Proposal) (i : Nat),
      lookupA s.proposals b = some q →
      lookupA ((stepTx s o).1).proposals b = some q' →
      q'.votes.get? i = q.votes.get? i ∨
        ∃ m, q.votes.get? i = some m ∧
          q'.votes.get? i = some { m with count := (m.count + 1) % u16Mod } := by
  constructor
  · rcases ((run_invariant ops hnd).2.2 a p hp).2 with h | h
    · exact h
    · exact absurd hrc (Nat.not_lt.mpr h)
  · intro s o b q q' i hq hq'
    rcases stepTx_proposal_evolution s o b q q' hq hq' with h | ⟨c, hc, h⟩
    · left
      rw [h]
    · rcases incFirst_get q.votes c i with h2 | ⟨m, hm, hm'⟩
      · left
        rw [h]
        exact h2
      · right
        exact ⟨m, hm, by rw [h]; exact hm'⟩

theorem C9_witness :
    sumCounts (⟨"d", "P1", [⟨"A", 1⟩, ⟨"B", 0⟩], 0, 10, 1⟩ : Proposal) =
      recordCount (run [.create 1 "P1" "d" ["A", "B"] 0 10, .vote 2 "P1" "A" 5]) "P1" ∧
    ((⟨"d", "P1", [⟨"A", 1⟩, ⟨"B", 0⟩], 100, 200, 1⟩ : Proposal).votes.get? 0 =
        (⟨"d", "P1", [⟨"A", 0⟩, ⟨"B", 0⟩], 100, 200, 1⟩ : Proposal).votes.get? 0 ∨
      ∃ m, (⟨"d", "P1", [⟨"A", 0⟩, ⟨"B", 0⟩], 100, 200, 1⟩ : Proposal).votes.get? 0 =
          some m ∧
        (⟨"d", "P1", [⟨"A", 1⟩, ⟨"B", 0⟩], 100, 200, 1⟩ : Proposal).votes.get? 0 =
          some { m with count := (m.count + 1) % u16Mod }) := by
  have h := C9_tally_invariant_bounded
    [.create 1 "P1" "d" ["A", "B"] 0 10, .vote 2 "P1" "A" 5] "P1"
    ⟨"d", "P1", [⟨"A", 1⟩, ⟨"B", 0⟩], 0, 10, 1⟩ (by decide) (by decide) (by decide)
  exact ⟨h.1, h.2 stateP1 (.vote 2 "P1" "A" 150) "P1"
    ⟨"d", "P1", [⟨"A", 0⟩, ⟨"B", 0⟩], 100, 200, 1⟩
    ⟨"d", "P1", [⟨"A", 1⟩, ⟨"B", 0⟩], 100, 200, 1⟩ 0 (by decide) (by decide)⟩

/-- **C9 (counterexample).** The invariant as claimed fails on this
four-transaction trace: create "P", one vote for "A", delete "P" after
the grace period (vote records are never deleted), re-create "P".  The
live proposal at address "P" then has `Σ choice.count = 0` while one
vote record still references the address, so the sum does not equal the
number of vote records referencing the proposal. -/
theorem C9_counterexample :
    lookupA (run [.create 1 "P" "d" ["A", "B"] 0 10, .vote 2 "P" "A" 5,
        .del 1 "P" 2592010, .create 1 "P" "d" ["A", "B"] 0 10]).proposals "P" =
      some (⟨"d", "P", [⟨"A", 0⟩, ⟨"B", 0⟩], 0, 10, 1⟩ : Proposal) ∧
    sumCounts (⟨"d", "P", [⟨"A", 0⟩, ⟨"B", 0⟩], 0, 10, 1⟩ : Proposal) = 0 ∧
    recordCount (run [.create 1 "P" "d" ["A", "B"] 0 10, .vote 2 "P" "A" 5,
        .del 1 "P" 2592010, .create 1 "P" "d" ["A", "B"] 0 10]) "P" = 1 ∧
    (0 : Nat) ≠ 1 := by
  exact ⟨by decide, by decide, by decide, by decide⟩

/-- **C10 (amended).** `create_proposal` performs no uniqueness check on
the choice names: for any choice list of valid length — duplicate names
included — and conforming dates at a free title, creation succeeds and
stores the list as given.  Choice-name uniqueness is *not* an invariant
established at creation. -/
theorem C10_no_uniqueness_enforced (s : DaoState) (sg : Nat) (title d : String)
    (ch : List String) (ds de : Nat)
    (h : lookupA s.proposals title = none)
    (h2 : 2 ≤ ch.length) (h5 : ch.length ≤ 5) (hd : ds ≤ de) :
    (createProposal s sg title d ch ds de).2 = none ∧
    lookupA ((createProposal s sg title d ch ds de).1).proposals title =
      some { description := d, title := title,
             votes := ch.map (fun name => { name := name, count := 0 }),
             date_start := ds, date_end := de, creator := sg } := by
  have hok := createProposal_ok s sg title d ch ds de h ⟨h2, h5⟩ hd
  rw [hok]
  exact ⟨rfl, by simp⟩

theorem C10_witness :
    (createProposal initState 1 "R" "d" ["A", "A"] 0 10).2 = none ∧
    lookupA ((createProposal initState 1 "R" "d" ["A", "A"] 0 10).1).proposals "R" =
      some { description := "d", title := "R",
             votes := ["A", "A"].map (fun name => { name := name, count := 0 }),
             date_start := 0, date_end := 10, creator := 1 } := by
  exact C10_no_uniqueness_enforced initState 1 "R" "d" ["A", "A"] 0 10
    (by decide) (by decide) (by decide) (by decide)

/-- **C10 (counterexample).** A proposal is successfully created with
the duplicate choice-name list `["A", "A"]`; its stored choice names are
not pairwise distinct, refuting the claimed uniqueness invariant. -/
theorem C10_counterexample :
    (createProposal initState 1 "P" "d" ["A", "A"] 0 10).2 = none ∧
    lookupA ((createProposal initState 1 "P" "d" ["A", "A"] 0 10).1).proposals "P" =
      some (⟨"d", "P", [⟨"A", 0⟩, ⟨"A", 0⟩], 0, 10, 1⟩ : Proposal) ∧
    ¬ (([⟨"A", 0⟩, ⟨"A", 0⟩] : List Choice).map Choice.name).Nodup := by
  exact ⟨by decide, by decide, by decide⟩
